import Mathlib

/-!
Verification of the experiment-orchestration pipeline in `cot_experiment.py`
(Zero-Shot vs Zero-Shot-CoT experiment runner).

Python strings are modelled as lists of Unicode code points (`List Char`).
The two Unicode-classification primitives the code relies on
(`str.isalnum`, `str.lower`) are modelled by executable tables that agree
with CPython on every code point this development mentions: ASCII, the CJK
Unified Ideographs block, the fullwidth punctuation used in the bundled
questions, and the special-cased letter U+0130.

Side effects (API calls, backoff waits, pacing waits, the final write of the
results artifact) are modelled as an explicit event trace; the external
chat-completion endpoint is an oracle parameter giving the outcome of each
attempt of each invocation.
-/

set_option maxRecDepth 4000

deriving instance DecidableEq for Except

/-- Python `str` modelled as a list of Unicode code points. -/
abbrev Str := List Char

/-- Model of the whitespace class used by Python `str.strip()` with no
arguments, exact on the ASCII range (space, tab, LF, CR, VT, FF); none of
the texts in this development contain non-ASCII whitespace. -/
def pyIsSpace (c : Char) : Bool :=
  c == ' ' || c == '\t' || c == '\n' || c == '\r' || c == '\x0b' || c == '\x0c'

/-- Model of Python `str.isalnum` on a single code point: true exactly for
the alphanumeric categories (Lu/Ll/Lt/Lm/Lo/Nd/Nl/No).  The table is exact
on ASCII, on the CJK Unified Ideographs block U+4E00..U+9FFF (category Lo,
used by the bundled questions), and on U+0130 (LATIN CAPITAL LETTER I WITH
DOT ABOVE, category Lu); every other code point mentioned in this
development (ASCII punctuation, whitespace, U+FF1F FULLWIDTH QUESTION MARK,
U+0307 COMBINING DOT ABOVE) is not alphanumeric, as in CPython. -/
def pyIsAlnum (c : Char) : Bool :=
  (('0' ≤ c && c ≤ '9') || ('a' ≤ c && c ≤ 'z') || ('A' ≤ c && c ≤ 'Z')
    || (0x4E00 ≤ c.val && c.val ≤ 0x9FFF) || c.val == 0x0130)

/-- Model of Python `str.lower` on a single code point, as a code-point
sequence (CPython applies the Unicode SpecialCasing table, so lowering one
character can yield several).  Exact on ASCII, on the CJK block (caseless),
and on U+0130, which CPython lowers to "i" followed by U+0307 COMBINING DOT
ABOVE; identity elsewhere, as in CPython for every other code point this
development mentions. -/
def pyLower (c : Char) : List Char :=
  if 'A' ≤ c && c ≤ 'Z' then [Char.ofNat (c.toNat + 32)]
  else if c.val == 0x0130 then ['i', Char.ofNat 0x0307]
  else [c]

/-- Python `s.lstrip()`. -/
def lstrip (s : Str) : Str := s.dropWhile pyIsSpace

/-- Python `s.rstrip()`. -/
def rstrip (s : Str) : Str := (s.reverse.dropWhile pyIsSpace).reverse

/-- Python `s.strip()`: whitespace removed from both ends. -/
def pyStrip (s : Str) : Str := lstrip (rstrip s)

/-- Model of `normalize_text` from `cot_experiment.py`:
`"".join(ch.lower() for ch in s if ch.isalnum())`. -/
def normalize_text (s : Str) : Str :=
  (s.filter pyIsAlnum).flatMap pyLower

/-- Model of `is_answer_correct` from `cot_experiment.py`.  `none` models Python
`None` (the "unknown" verdict); the final test models Python substring
membership `normalized_truth in normalized_answer`. -/
def is_answer_correct (answer : Str) (ground_truth : Str) : Option Bool :=
  if ground_truth = [] then none
  else
    let normalized_truth := normalize_text ground_truth
    let normalized_answer := normalize_text answer
    if normalized_truth = [] then none
    else some (decide (normalized_truth <:+: normalized_answer))

/-- Model of `build_prompt` from `cot_experiment.py`.  Note the `endswith` test is
made against the original, untrimmed `question`, and the appended form is
`f"{question.strip()} {suffix}".strip()`. -/
def build_prompt (question : Str) (suffix : Str) : Str :=
  let suffix := pyStrip suffix
  if suffix ≠ [] ∧ ¬ suffix <:+ question then
    pyStrip (pyStrip question ++ ' ' :: suffix)
  else
    pyStrip question

/-- Model of `QuestionSpec` from `cot_experiment.py`. -/
structure QuestionSpec where
  prompt : Str
  ground_truth : Str
  rationale : Str
  deriving DecidableEq

/-- One element of the `records` array of a replay fixture. -/
structure ReplayRecord where
  question : Str
  zero_shot_answer : Str
  cot_answer : Str
  deriving DecidableEq

/-- The per-question value stored in the replay lookup dict. -/
structure ReplayEntry where
  zero_shot : Str
  cot : Str
  deriving DecidableEq

/-- Model of `load_replay_data` from `cot_experiment.py`: builds the dict keyed by
literal question text.  The Python dict is modelled as the association list
of insertions; `dictGet` below realises the dict lookup (later insertions
overwrite earlier ones). -/
def load_replay_data (records : List ReplayRecord) : List (Str × ReplayEntry) :=
  records.map (fun item => (item.question, ⟨item.zero_shot_answer, item.cot_answer⟩))

/-- Lookup in the modelled dict: the value of the latest insertion under the
key, as in a Python dict built by repeated assignment. -/
def dictGet (lookup : List (Str × ReplayEntry)) (k : Str) : Option ReplayEntry :=
  ((lookup.filter (fun p => p.1 == k)).getLast?).map Prod.snd

/-- Model of `simulate_answer` from `cot_experiment.py`: the deterministic dry-run
answer.  `question.ground_truth or '未知'` is Python string truthiness:
the ground truth when non-empty, the placeholder otherwise. -/
def simulate_answer (question : QuestionSpec) (mode : Str) : Str :=
  let intro := ("[模拟回答]".data)
  let gt := if question.ground_truth = [] then ("未知".data) else question.ground_truth
  if mode = ("cot".data) then
    intro ++ (" 让我们一步一步地分析：\n1. 问题：".data) ++ question.prompt
      ++ ("\n2. 推理……所以答案是 ".data) ++ gt ++ ("。".data)
  else
    intro ++ (" ".data) ++ question.prompt ++ (" => ".data) ++ gt

/-- The errors the run can abort with, mirroring the exceptions raised in
`cot_experiment.py`. -/
inductive AppError where
  /-- `EnvironmentError`: OPENAI_API_KEY unset (or empty, which Python
  treats as unset via truthiness). -/
  | environmentError
  /-- `RuntimeError`: the openai SDK is not importable. -/
  | sdkMissing
  /-- `KeyError` raised when replay data lacks a question; carries the
  question text. -/
  | keyError (question : Str)
  /-- `RuntimeError("API 调用失败: ...")` raised when retries are
  exhausted; carries the last underlying error. -/
  | apiError (last_error : Str)
  deriving DecidableEq

/-- The ambient process environment `main` reads. -/
structure Env where
  /-- `os.getenv("OPENAI_API_KEY")`; `none` models unset or empty. -/
  api_key : Option Str
  /-- Whether `from openai import OpenAI` succeeded. -/
  openai_available : Bool
  deriving DecidableEq

/-- The constructed OpenAI client (its behaviour lives in the call oracle). -/
structure Client where
  api_key : Str
  base_url : Option Str
  deriving DecidableEq

/-- Model of `build_client` from `cot_experiment.py`: requires the credential, then
the SDK, in that order. -/
def build_client (env : Env) (base_url : Option Str) : Except AppError Client :=
  match env.api_key with
  | none => .error .environmentError
  | some key =>
    if env.openai_available then .ok ⟨key, base_url⟩ else .error .sdkMissing

/-- A replay fixture as supplied on the command line: its path (recorded in
the run metadata) and its parsed `records` array.  A run with no
`--replay-file` (or an empty path, falsy in Python) has none. -/
structure ReplayFixture where
  path : Str
  records : List ReplayRecord
  deriving DecidableEq

/-- The parsed command-line configuration (`parse_args` output), minus the
questions-file path: the loaded question list is passed to `main` directly. -/
structure Args where
  model : Str
  temperature : ℚ
  cot_suffix : Str
  zero_shot_suffix : Str
  max_retries : Nat
  retry_wait : ℚ
  pause : ℚ
  output_dir : Str
  base_url : Option Str
  replay_file : Option ReplayFixture
  dry_run : Bool
  save_markdown : Bool
  tag : Option Str
  deriving DecidableEq

/-- The `metadata` dict assembled at the end of `main`. -/
structure RunMetadata where
  run_id : Str
  model : Str
  temperature : ℚ
  cot_suffix : Str
  zero_shot_suffix : Str
  question_count : Nat
  timestamp : Str
  replay_file : Option Str
  deriving DecidableEq

/-- One element of the persisted `records` list (`result_entry` in `main`). -/
structure ResultEntry where
  question : Str
  rationale : Str
  ground_truth : Str
  zero_shot_prompt : Str
  cot_prompt : Str
  zero_shot_answer : Str
  cot_answer : Str
  zero_shot_correct : Option Bool
  cot_correct : Option Bool
  deriving DecidableEq

/-- Observable side effects of a run, in order: individual live API call
attempts, timed suspensions, and the single write performed by
`save_results`. -/
inductive Event where
  | apiCall (prompt : Str) (attempt : Nat)
  | sleep (seconds : ℚ)
  | store (run_folder : Str) (metadata : RunMetadata) (records : List ResultEntry)
      (save_markdown : Bool)
  deriving DecidableEq

/-- The attempt index carried by an API-call event. -/
def Event.attemptIdx : Event → Option Nat
  | .apiCall _ n => some n
  | _ => none

/-- The duration carried by a suspension event. -/
def Event.sleepSecs : Event → Option ℚ
  | .sleep s => some s
  | _ => none

/-- Whether an event is the artifact write. -/
def Event.isStoreEvent : Event → Bool
  | .store .. => true
  | _ => false

/-- Whether an event is a live API call attempt. -/
def Event.isApiEvent : Event → Bool
  | .apiCall _ _ => true
  | _ => false

/-- The records carried by a store event, for reading traces back. -/
def Event.storedPairs : Event → Option (List (Str × Option Bool))
  | .store _ _ recs _ => some (recs.map (fun r => (r.ground_truth, r.zero_shot_correct)))
  | _ => none

/-- The while-loop of `run_chat_completion`, one step per attempt.
`callApi attempt` is the outcome of the `client.chat.completions.create`
call on that attempt; `fuel` is `max_retries - attempt`, so `fuel = 0`
means this is the final permitted attempt (`attempt == max_retries`, where
a failure breaks out of the loop and the terminal error is raised).  The
local `wait` variable of the Python loop is never reassigned, so the
suspension before retry `attempt + 1` is `retry_wait * 2 ^ attempt`. -/
def run_chat_completion_loop (callApi : Nat → Except Str Str) (prompt : Str)
    (retry_wait : ℚ) : Nat → Nat → Except Str Str × List Event
  | attempt, 0 =>
    match callApi attempt with
    | .ok content => (.ok content, [.apiCall prompt attempt])
    | .error exc => (.error exc, [.apiCall prompt attempt])
  | attempt, fuel + 1 =>
    match callApi attempt with
    | .ok content => (.ok content, [.apiCall prompt attempt])
    | .error _ =>
      let rest := run_chat_completion_loop callApi prompt retry_wait (attempt + 1) fuel
      (rest.1, .apiCall prompt attempt :: .sleep (retry_wait * 2 ^ attempt) :: rest.2)

/-- Model of `run_chat_completion` from `cot_experiment.py`.  The client, model and
temperature only parameterise the external call, so they are absorbed into
the `callApi` oracle; the loop starts at `attempt = 0` with
`max_retries - 0` retries still allowed. -/
def run_chat_completion (callApi : Nat → Except Str Str) (prompt : Str)
    (max_retries : Nat) (retry_wait : ℚ) : Except Str Str × List Event :=
  run_chat_completion_loop callApi prompt retry_wait 0 max_retries

/-- The replay answer pair for one question: the dict lookup of the literal
question text, with `KeyError` when absent (Python `if not replay: raise`;
a present entry is a two-key dict, always truthy). -/
def answer_pair_replay (replay_lookup : List (Str × ReplayEntry))
    (question : QuestionSpec) : Except AppError (Str × Str) :=
  match dictGet replay_lookup question.prompt with
  | none => .error (.keyError question.prompt)
  | some replay => .ok (replay.zero_shot, replay.cot)

/-- The dry-run answer pair: `simulate_answer` for each mode. -/
def answer_pair_simulated (question : QuestionSpec) : Str × Str :=
  (simulate_answer question ("zero".data), simulate_answer question ("cot".data))

/-- The live answer pair for one question: `run_chat_completion` on the
zero-shot prompt, the pacing pause, then `run_chat_completion` on the CoT
prompt.  `api inv` is the per-attempt oracle of invocation number `inv`;
the two invocations of this question are `call_base` and `call_base + 1`.
An exhausted retry loop surfaces as the terminal `RuntimeError`. -/
def answer_pair_live (args : Args) (api : Nat → Nat → Except Str Str)
    (call_base : Nat) (zero_prompt cot_prompt : Str) :
    Except AppError (Str × Str) × List Event :=
  let zres := run_chat_completion (api call_base) zero_prompt args.max_retries args.retry_wait
  match zres.1 with
  | .error e => (.error (.apiError e), zres.2)
  | .ok zero_answer =>
    let cres := run_chat_completion (api (call_base + 1)) cot_prompt
      args.max_retries args.retry_wait
    match cres.1 with
    | .error e => (.error (.apiError e), zres.2 ++ Event.sleep args.pause :: cres.2)
    | .ok cot_answer =>
      (.ok (zero_answer, cot_answer), zres.2 ++ Event.sleep args.pause :: cres.2)

/-- The scoring-and-assembly tail of the per-question loop body in `main`:
given the obtained answer pair (or the error it raised), score both answers
and assemble the result entry, then run the trailing
`time.sleep(args.pause)` of the loop body (which runs in every mode). -/
def assembleEntry (args : Args) (question : QuestionSpec) (zero_prompt cot_prompt : Str)
    (answers : Except AppError (Str × Str) × List Event) :
    Except AppError ResultEntry × List Event :=
  match answers.1 with
  | .error e => (.error e, answers.2)
  | .ok (zero_answer, cot_answer) =>
    (.ok {
      question := question.prompt
      rationale := question.rationale
      ground_truth := question.ground_truth
      zero_shot_prompt := zero_prompt
      cot_prompt := cot_prompt
      zero_shot_answer := zero_answer
      cot_answer := cot_answer
      zero_shot_correct := is_answer_correct zero_answer question.ground_truth
      cot_correct := is_answer_correct cot_answer question.ground_truth },
     answers.2 ++ [Event.sleep args.pause])

/-- The body of the per-question loop in `main`: build both prompts, obtain
both answers through the branch chain
`if replay_lookup: ... elif args.dry_run: ... else: ...`, score both, and
assemble the result entry.  `idx` is the zero-based question index. -/
def processQuestion (args : Args) (replay_lookup : List (Str × ReplayEntry))
    (api : Nat → Nat → Except Str Str) (idx : Nat) (question : QuestionSpec) :
    Except AppError ResultEntry × List Event :=
  let zero_prompt := build_prompt question.prompt args.zero_shot_suffix
  let cot_prompt := build_prompt question.prompt args.cot_suffix
  assembleEntry args question zero_prompt cot_prompt
    (if replay_lookup ≠ [] then
      (answer_pair_replay replay_lookup question, [])
    else if args.dry_run then
      (.ok (answer_pair_simulated question), [])
    else
      answer_pair_live args api (2 * idx) zero_prompt cot_prompt)

/-- The `for idx, question in enumerate(questions)` loop of `main`:
sequential, aborting at the first raised error, accumulating result entries
in source order. -/
def runLoop (args : Args) (replay_lookup : List (Str × ReplayEntry))
    (api : Nat → Nat → Except Str Str) :
    List QuestionSpec → Nat → Except AppError (List ResultEntry) × List Event
  | [], _ => (.ok [], [])
  | question :: rest, idx =>
    match processQuestion args replay_lookup api idx question with
    | (.error e, tr) => (.error e, tr)
    | (.ok entry, tr) =>
      let tail := runLoop args replay_lookup api rest (idx + 1)
      (tail.1.map (fun l => entry :: l), tr ++ tail.2)

/-- Model of `save_results` from `cot_experiment.py`: resolves the run folder
`output_dir / run_id` and writes the `{metadata, records}` payload (plus the
optional markdown view) there — modelled as the single store effect. -/
def save_results (results : List ResultEntry) (output_dir : Str)
    (metadata : RunMetadata) (save_markdown : Bool) : Str × Event :=
  let run_folder := output_dir ++ '/' :: metadata.run_id
  (run_folder, .store run_folder metadata results save_markdown)

/-- The replay lookup `main` starts from:
`load_replay_data(args.replay_file) if args.replay_file else {}`. -/
def replayLookupOf (args : Args) : List (Str × ReplayEntry) :=
  match args.replay_file with
  | some fixture => load_replay_data fixture.records
  | none => []

/-- Model of `main` from `cot_experiment.py` (named `mainRun` since Lean reserves the
name `main` for executables), over an already-loaded question list.
`api` is the oracle of live-call outcomes (invocation number, attempt
number); `run_stamp` models the `now_stamp()` call that backs a missing
`--tag`, and `timestamp` the `datetime.now().isoformat()` recorded in the
metadata.  Returns the printed run folder (or the raised error) together
with the ordered event trace. -/
def mainRun (args : Args) (env : Env) (questions : List QuestionSpec)
    (api : Nat → Nat → Except Str Str) (run_stamp : Str) (timestamp : Str) :
    Except AppError Str × List Event :=
  let replay_lookup := replayLookupOf args
  let clientRes : Except AppError (Option Client) :=
    if args.dry_run = false ∧ replay_lookup = [] then
      (build_client env args.base_url).map some
    else .ok none
  match clientRes with
  | .error e => (.error e, [])
  | .ok _client =>
    let run_id := args.tag.getD run_stamp
    let looped := runLoop args replay_lookup api questions 0
    match looped.1 with
    | .error e => (.error e, looped.2)
    | .ok results =>
      let metadata : RunMetadata := {
        run_id := run_id
        model := args.model
        temperature := args.temperature
        cot_suffix := args.cot_suffix
        zero_shot_suffix := args.zero_shot_suffix
        question_count := questions.length
        timestamp := timestamp
        replay_file := args.replay_file.map (fun f => f.path) }
      let saved := save_results results args.output_dir metadata args.save_markdown
      (.ok saved.1, looped.2 ++ [saved.2])

/-- The metadata dict `main` assembles for a given configuration and
question list (spelled out for reuse in statements about `mainRun`). -/
def metadataOf (args : Args) (questions : List QuestionSpec)
    (run_stamp timestamp : Str) : RunMetadata :=
  { run_id := args.tag.getD run_stamp
    model := args.model
    temperature := args.temperature
    cot_suffix := args.cot_suffix
    zero_shot_suffix := args.zero_shot_suffix
    question_count := questions.length
    timestamp := timestamp
    replay_file := args.replay_file.map (fun f => f.path) }

/-- The three answer-provider variants. -/
inductive Provider where
  | replay
  | simulated
  | live
  deriving DecidableEq

/-- The provider the branch chain of `main` dispatches to, as a function of
the configuration alone (the same value for every question of the run). -/
def selectedProvider (dry_run : Bool) (replay_lookup : List (Str × ReplayEntry)) :
    Provider :=
  if replay_lookup ≠ [] then .replay
  else if dry_run then .simulated
  else .live

/-- The function `processQuestion` rephrased as a single dispatch on `selectedProvider`:
used to state that the provider decision is a function of the configuration
only, taken identically for every (question, mode) pair. -/
def processQuestionBySelected (args : Args) (replay_lookup : List (Str × ReplayEntry))
    (api : Nat → Nat → Except Str Str) (idx : Nat) (question : QuestionSpec) :
    Except AppError ResultEntry × List Event :=
  let zero_prompt := build_prompt question.prompt args.zero_shot_suffix
  let cot_prompt := build_prompt question.prompt args.cot_suffix
  assembleEntry args question zero_prompt cot_prompt
    (match selectedProvider args.dry_run replay_lookup with
    | .replay => (answer_pair_replay replay_lookup question, [])
    | .simulated => (.ok (answer_pair_simulated question), [])
    | .live => answer_pair_live args api (2 * idx) zero_prompt cot_prompt)

/-- The claim C5 reading of `build_prompt`, written from the spec sentence:
the endswith test is made against the TRIMMED question, and the appended
form is literally trimmed question, one space, trimmed suffix. -/
def build_prompt_claimed (question : Str) (suffix : Str) : Str :=
  let suffix := pyStrip suffix
  let question := pyStrip question
  if suffix ≠ [] ∧ ¬ suffix <:+ question then
    question ++ ' ' :: suffix
  else
    question

/-- The amended C5 reading of `build_prompt`: the endswith test is made
against the original, untrimmed question, and when the trimmed question is
empty the appended form collapses to the trimmed suffix alone. -/
def build_prompt_amended (question : Str) (suffix : Str) : Str :=
  let suffix := pyStrip suffix
  if suffix ≠ [] ∧ ¬ suffix <:+ question then
    if pyStrip question = [] then suffix else pyStrip question ++ ' ' :: suffix
  else
    pyStrip question

/-- The backoff-interleaved front segment of a retry trace: `failures` failed
attempts starting at `attempt`, each followed by its suspension. -/
def backoffTrace (prompt : Str) (retry_wait : ℚ) : Nat → Nat → List Event
  | _, 0 => []
  | attempt, f + 1 =>
    .apiCall prompt attempt :: .sleep (retry_wait * 2 ^ attempt)
      :: backoffTrace prompt retry_wait (attempt + 1) f

/-- The relation between a question and the result entry assembled for it:
the identifying fields are copied over, and both verdicts are the scoring
function applied to the stored answer and the question's ground truth. -/
def entryMatches (question : QuestionSpec) (r : ResultEntry) : Prop :=
  r.question = question.prompt ∧
  r.ground_truth = question.ground_truth ∧
  r.zero_shot_correct = is_answer_correct r.zero_shot_answer question.ground_truth ∧
  r.cot_correct = is_answer_correct r.cot_answer question.ground_truth

/-- A small dry-run configuration used by the concrete checks below. -/
def dryArgs : Args :=
  { model := ("m").data, temperature := 0, cot_suffix := ("c.").data,
    zero_shot_suffix := ("z.").data, max_retries := 2, retry_wait := 1, pause := 1,
    output_dir := ("out").data, base_url := none, replay_file := none,
    dry_run := true, save_markdown := false, tag := some (("t1").data) }

/-- An environment with no credential. -/
def noKeyEnv : Env := { api_key := none, openai_available := true }

/-- An environment holding a credential and a working SDK. -/
def keyedEnv : Env := { api_key := some (("k").data), openai_available := true }

/-- A call oracle that is never consulted successfully. -/
def noApi : Nat → Nat → Except Str Str := fun _ _ => .error []

/-- A per-attempt oracle that fails every attempt, for the retry checks. -/
def alwaysFailApi : Nat → Except Str Str := fun _ => .error (("boom").data)

/-- A question whose ground truth is a single space: non-empty, but
normalizing to the empty string. -/
def blankTruthQuestion : QuestionSpec :=
  { prompt := ("2+2").data, ground_truth := (" ").data, rationale := [] }

/-- A configuration supplying a replay fixture whose records list is empty. -/
def emptyFixtureArgs : Args :=
  { dryArgs with
    dry_run := false
    replay_file := some { path := ("r.json").data, records := [] } }

/-- A one-record replay fixture. -/
def oneRecordFixture : ReplayFixture :=
  { path := ("r.json").data
    records := [{ question := ("hi").data
                  zero_shot_answer := ("z").data
                  cot_answer := ("c").data }] }

/-- A configuration supplying `oneRecordFixture`. -/
def replayArgs : Args :=
  { dryArgs with
    dry_run := false
    replay_file := some oneRecordFixture }

/-- A question absent from `oneRecordFixture`. -/
def missingQuestion : QuestionSpec :=
  { prompt := ("absent").data, ground_truth := [], rationale := [] }

theorem dropWhile_eq_cons_head {p : Char → Bool} :
    ∀ {l : List Char} {c : Char} {t : List Char}, l.dropWhile p = c :: t → p c = false := by
  intro l
  induction l with
  | nil => intro c t h; simp [List.dropWhile] at h
  | cons a l2 ih =>
    intro c t h
    rw [List.dropWhile_cons] at h
    by_cases ha : p a
    · rw [if_pos ha] at h
      exact ih h
    · rw [if_neg ha] at h
      cases h
      simpa using ha

theorem lstrip_head_not_space {s : Str} {c : Char} {t : Str}
    (h : lstrip s = c :: t) : pyIsSpace c = false :=
  dropWhile_eq_cons_head h

theorem rstrip_concat_not_space {s t : Str} {c : Char}
    (h : rstrip s = t ++ [c]) : pyIsSpace c = false := by
  have h2 : s.reverse.dropWhile pyIsSpace = c :: t.reverse := by
    have := congrArg List.reverse h
    simpa [rstrip] using this
  exact dropWhile_eq_cons_head h2

theorem rstrip_eq_self {t : Str} {c : Char} (hc : pyIsSpace c = false) :
    rstrip (t ++ [c]) = t ++ [c] := by
  unfold rstrip
  rw [List.reverse_append]
  simp only [List.reverse_cons, List.reverse_nil, List.nil_append, List.singleton_append,
    List.dropWhile_cons, hc]
  simp

theorem lstrip_idem (s : Str) : lstrip (lstrip s) = lstrip s :=
  List.dropWhile_idempotent pyIsSpace s

theorem suffix_lstrip_of_head {c : Char} {t q : Str} (hc : pyIsSpace c = false)
    (h : (c :: t) <:+ q) : (c :: t) <:+ lstrip q := by
  induction q with
  | nil => simp at h
  | cons a q2 ih =>
    unfold lstrip
    rw [List.dropWhile_cons]
    rcases List.suffix_cons_iff.mp h with h1 | h1
    · have ha : a = c := by cases h1; rfl
      rw [ha, hc]
      simpa [ha] using h
    · by_cases hsa : pyIsSpace a
      · rw [if_pos hsa]
        exact ih h1
      · rw [if_neg hsa]
        exact h

theorem lstrip_suffix (s : Str) : lstrip s <:+ s :=
  List.dropWhile_suffix pyIsSpace

theorem pyStrip_head_not_space {s : Str} {c : Char} {t : Str}
    (h : pyStrip s = c :: t) : pyIsSpace c = false :=
  lstrip_head_not_space h

theorem pyStrip_concat_not_space {s t : Str} {c : Char}
    (h : pyStrip s = t ++ [c]) : pyIsSpace c = false := by
  rcases lstrip_suffix (rstrip s) with ⟨u, hu⟩
  have h2 : lstrip (rstrip s) = t ++ [c] := h
  have hr : rstrip s = (u ++ t) ++ [c] := by
    rw [← hu, h2, List.append_assoc]
  exact rstrip_concat_not_space hr

theorem pyStrip_idem (s : Str) : pyStrip (pyStrip s) = pyStrip s := by
  rcases hcase : lstrip (rstrip s) with _ | ⟨c, t⟩
  · have hs : pyStrip s = [] := hcase
    rw [hs]
    rfl
  · have hs : pyStrip s = c :: t := hcase
    rcases List.eq_nil_or_concat (c :: t) with hnil | ⟨t2, c2, hconc⟩
    · simp at hnil
    · have hc2 : pyIsSpace c2 = false := by
        apply pyStrip_concat_not_space (s := s)
        rw [hs, hconc, List.concat_eq_append]
      have hr : rstrip (pyStrip s) = pyStrip s := by
        rw [hs, hconc, List.concat_eq_append]
        exact rstrip_eq_self hc2
      show lstrip (rstrip (pyStrip s)) = pyStrip s
      rw [hr]
      exact lstrip_idem (rstrip s)

theorem lstrip_pyStrip (s : Str) : lstrip (pyStrip s) = pyStrip s :=
  lstrip_idem (rstrip s)

theorem pyStrip_glue (q s : Str) (hs : pyStrip s ≠ []) :
    pyStrip (pyStrip q ++ ' ' :: pyStrip s) =
      if pyStrip q = [] then pyStrip s else pyStrip q ++ ' ' :: pyStrip s := by
  rcases List.eq_nil_or_concat (pyStrip s) with hnil | ⟨t2, c2, hconc⟩
  · exact absurd hnil hs
  · have hc2 : pyIsSpace c2 = false := by
      apply pyStrip_concat_not_space (s := s)
      rw [hconc, List.concat_eq_append]
    have hsplit : pyStrip q ++ ' ' :: pyStrip s = (pyStrip q ++ ' ' :: t2) ++ [c2] := by
      rw [hconc, List.concat_eq_append]
      simp
    have hr : rstrip (pyStrip q ++ ' ' :: pyStrip s) = pyStrip q ++ ' ' :: pyStrip s := by
      rw [hsplit]
      exact rstrip_eq_self hc2
    show lstrip (rstrip (pyStrip q ++ ' ' :: pyStrip s)) = _
    rw [hr]
    by_cases hq : pyStrip q = []
    · rw [if_pos hq, hq, List.nil_append]
      unfold lstrip
      rw [List.dropWhile_cons]
      have hsp : pyIsSpace ' ' = true := rfl
      rw [hsp, if_pos rfl]
      exact lstrip_pyStrip s
    · rw [if_neg hq]
      rcases List.exists_cons_of_ne_nil hq with ⟨c, t, hct⟩
      have hc : pyIsSpace c = false := pyStrip_head_not_space (s := q) hct
      rw [hct, List.cons_append]
      unfold lstrip
      rw [List.dropWhile_cons, hc]
      simp

theorem build_prompt_of_empty {q s : Str} (h : pyStrip s = []) :
    build_prompt q s = pyStrip q := by
  unfold build_prompt
  rw [if_neg]
  simp [h]

theorem build_prompt_of_suffix {q s : Str} (h : pyStrip s <:+ q) :
    build_prompt q s = pyStrip q := by
  unfold build_prompt
  rw [if_neg]
  simp [h]

theorem pyStrip_build_prompt (q s : Str) :
    pyStrip (build_prompt q s) = build_prompt q s := by
  simp only [build_prompt]
  split_ifs with h
  · exact pyStrip_idem _
  · exact pyStrip_idem _

theorem suffix_build_prompt (q s : Str) (hs : pyStrip s ≠ []) :
    pyStrip s <:+ build_prompt q s := by
  simp only [build_prompt]
  split_ifs with h
  · rw [pyStrip_glue q s hs]
    split_ifs with hq
    · exact List.suffix_refl _
    · exact (List.suffix_cons ' ' (pyStrip s)).trans (List.suffix_append _ _)
  · have hsq : pyStrip s <:+ q := by
      by_contra hn
      exact h ⟨hs, hn⟩
    rcases List.exists_cons_of_ne_nil hs with ⟨c, t, hct⟩
    have hc : pyIsSpace c = false := pyStrip_head_not_space (s := s) hct
    rcases List.eq_nil_or_concat (pyStrip s) with hnil | ⟨t2, c2, hconc⟩
    · exact absurd hnil hs
    · have hc2 : pyIsSpace c2 = false := by
        apply pyStrip_concat_not_space (s := s)
        rw [hconc, List.concat_eq_append]
      rcases hsq with ⟨u, hu⟩
      have hrq : rstrip q = q := by
        conv in rstrip q => rw [← hu, hconc, List.concat_eq_append, ← List.append_assoc]
        rw [rstrip_eq_self hc2, List.append_assoc, ← List.concat_eq_append, ← hconc, hu]
      show pyStrip s <:+ lstrip (rstrip q)
      rw [hrq, hct]
      refine suffix_lstrip_of_head hc ?_
      rw [← hct]
      exact ⟨u, hu⟩

/-- Claim C5, corrected: `build_prompt` trims the suffix; if the trimmed
suffix is non-empty and the original (untrimmed) question does not already
end with it, the result is the trimmed question followed by a single space
and the trimmed suffix (collapsing to the trimmed suffix alone when the
trimmed question is empty); otherwise the result is the trimmed question
unchanged. -/
theorem C5_build_prompt_amended : ∀ question suffix : Str,
    build_prompt question suffix = build_prompt_amended question suffix := by
  intro q s
  simp only [build_prompt, build_prompt_amended]
  split_ifs with h hq
  · rw [pyStrip_glue q s h.1, if_pos hq]
  · rw [pyStrip_glue q s h.1, if_neg hq]
  · rfl

/-- Counterexample to claim C5 as stated: with question `"a world "` and
suffix `"world"`, the trimmed suffix is non-empty and the trimmed question
ends with it, so the claim predicts the trimmed question unchanged — but
`build_prompt` tests `endswith` on the untrimmed question (which ends in a
space) and appends, and so disagrees with the claimed reading. -/
theorem C5_counterexample :
    pyStrip (("world").data) ≠ [] ∧
    pyStrip (("world").data) <:+ pyStrip (("a world ").data) ∧
    build_prompt (("a world ").data) (("world").data) ≠ pyStrip (("a world ").data) ∧
    build_prompt (("a world ").data) (("world").data) ≠
      build_prompt_claimed (("a world ").data) (("world").data) := by decide

/-- Claim C7: `build_prompt` is idempotent in its first argument — applying
the builder twice with the same suffix yields the same prompt as applying
it once. -/
theorem C7_build_prompt_idempotent (question suffix : Str) :
    build_prompt (build_prompt question suffix) suffix = build_prompt question suffix := by
  by_cases hs : pyStrip suffix = []
  · rw [build_prompt_of_empty hs, pyStrip_build_prompt]
  · rw [build_prompt_of_suffix (suffix_build_prompt question suffix hs),
      pyStrip_build_prompt]

theorem flatMap_singletons {t : Str} (h : ∀ d ∈ t, pyLower d = [d]) :
    t.flatMap pyLower = t := by
  induction t with
  | nil => rfl
  | cons a t2 ih =>
    rw [List.flatMap_cons, h a (List.mem_cons_self a t2),
      ih (fun d hd => h d (List.mem_cons_of_mem a hd))]
    rfl

/-- Counterexample to claim C6 as stated: `normalize` is not idempotent on
the code.  On the single character U+0130 (LATIN CAPITAL LETTER I WITH DOT
ABOVE), which is alphanumeric, CPython's `str.lower` yields "i" followed by
the non-alphanumeric U+0307 COMBINING DOT ABOVE, so a second normalization
pass drops the combining mark and changes the string. -/
theorem C6_counterexample :
    normalize_text (normalize_text [Char.ofNat 0x130]) ≠
      normalize_text [Char.ofNat 0x130] := by decide

/-- Claim C6, corrected: `normalize` (retain alphanumeric code points,
lower-case, concatenate) is idempotent on every text whose alphanumeric
characters lower-case to alphanumeric, lower-stable code points.  This
covers ASCII and CJK text, but not U+0130, whose lowering emits a
non-alphanumeric combining mark — so idempotence does not hold for all
texts. -/
theorem C6_normalize_idempotent_tame (s : Str)
    (h : ∀ c ∈ s, pyIsAlnum c = true →
      ∀ d ∈ pyLower c, pyIsAlnum d = true ∧ pyLower d = [d]) :
    normalize_text (normalize_text s) = normalize_text s := by
  have hmem : ∀ d ∈ normalize_text s, pyIsAlnum d = true ∧ pyLower d = [d] := by
    intro d hd
    rcases List.mem_flatMap.mp hd with ⟨c, hc, hdc⟩
    rcases List.mem_filter.mp hc with ⟨hcs, hca⟩
    exact h c hcs hca d hdc
  show ((normalize_text s).filter pyIsAlnum).flatMap pyLower = normalize_text s
  rw [List.filter_eq_self.mpr (fun d hd => (hmem d hd).1)]
  exact flatMap_singletons (fun d hd => (hmem d hd).2)

/-- Witness for the corrected C6 theorem at the concrete mixed-script text
"Ab30苹果", whose characters all lower-case to stable alphanumerics. -/
theorem C6_witness :
    (∀ c ∈ (("Ab30苹果").data), pyIsAlnum c = true →
      ∀ d ∈ pyLower c, pyIsAlnum d = true ∧ pyLower d = [d]) ∧
    normalize_text (normalize_text (("Ab30苹果").data)) =
      normalize_text (("Ab30苹果").data) :=
  ⟨by decide, C6_normalize_idempotent_tame (("Ab30苹果").data) (by decide)⟩

theorem is_answer_correct_none_iff (answer ground_truth : Str) :
    is_answer_correct answer ground_truth = none ↔
      (ground_truth = [] ∨ normalize_text ground_truth = []) := by
  simp only [is_answer_correct]
  split_ifs with h1 h2
  · simp [h1]
  · simp [h1, h2]
  · simp [h1, h2]

/-- Claim C3: `is_answer_correct` returns the unknown verdict exactly when
the ground truth is empty or normalizes to the empty string; otherwise it
answers true exactly when the normalized ground truth occurs contiguously
inside the normalized answer, and false otherwise — in particular on the
two concrete CJK examples. -/
theorem C3_score_spec :
    (∀ answer ground_truth : Str,
      ((ground_truth = [] ∨ normalize_text ground_truth = []) →
        is_answer_correct answer ground_truth = none) ∧
      (ground_truth ≠ [] → normalize_text ground_truth ≠ [] →
        ((is_answer_correct answer ground_truth = some true ↔
            normalize_text ground_truth <:+: normalize_text answer) ∧
         (is_answer_correct answer ground_truth = some false ↔
            ¬ normalize_text ground_truth <:+: normalize_text answer)))) ∧
    is_answer_correct (("篮子里最终有30个苹果").data) (("30").data) = some true ∧
    is_answer_correct (("答案是20").data) (("30").data) = some false := by
  refine ⟨?_, by decide, by decide⟩
  intro answer ground_truth
  constructor
  · exact fun h => (is_answer_correct_none_iff answer ground_truth).mpr h
  · intro h1 h2
    simp only [is_answer_correct]
    rw [if_neg h1, if_neg h2]
    constructor
    · simp [decide_eq_true_iff]
    · simp [decide_eq_false_iff_not]

/-- Witness for C3: the unknown verdict on an empty ground truth, via the
first clause of the theorem at a concrete answer. -/
theorem C3_witness : is_answer_correct (("whatever").data) [] = none :=
  (C3_score_spec.1 (("whatever").data) []).1 (Or.inl rfl)

theorem run_chat_completion_loop_fail (callApi : Nat → Except Str Str) (prompt : Str)
    (retry_wait : ℚ) :
    ∀ (fuel attempt : Nat),
      (∀ n, attempt ≤ n → n ≤ attempt + fuel → ∃ e, callApi n = .error e) →
      ∃ e, callApi (attempt + fuel) = .error e ∧
        run_chat_completion_loop callApi prompt retry_wait attempt fuel =
          (.error e, backoffTrace prompt retry_wait attempt fuel
            ++ [Event.apiCall prompt (attempt + fuel)]) := by
  intro fuel
  induction fuel with
  | zero =>
    intro attempt h
    rcases h attempt le_rfl (by omega) with ⟨e, he⟩
    refine ⟨e, by simpa using he, ?_⟩
    simp [run_chat_completion_loop, he, backoffTrace]
  | succ f ih =>
    intro attempt h
    rcases h attempt le_rfl (by omega) with ⟨e0, he0⟩
    rcases ih (attempt + 1) (fun n h1 h2 => h n (by omega) (by omega)) with ⟨e, he, hrun⟩
    have hidx : attempt + (f + 1) = attempt + 1 + f := by omega
    refine ⟨e, by rw [hidx]; exact he, ?_⟩
    rw [hidx]
    simp [run_chat_completion_loop, he0, hrun, backoffTrace]

theorem run_chat_completion_loop_succ (callApi : Nat → Except Str Str) (prompt : Str)
    (retry_wait : ℚ) :
    ∀ (j fuel attempt : Nat) (a : Str), j ≤ fuel →
      (∀ i, i < j → ∃ e, callApi (attempt + i) = .error e) →
      callApi (attempt + j) = .ok a →
      run_chat_completion_loop callApi prompt retry_wait attempt fuel =
        (.ok a, backoffTrace prompt retry_wait attempt j
          ++ [Event.apiCall prompt (attempt + j)]) := by
  intro j
  induction j with
  | zero =>
    intro fuel attempt a hle hfail hok
    simp only [Nat.add_zero] at hok
    cases fuel with
    | zero => simp [run_chat_completion_loop, hok, backoffTrace]
    | succ f => simp [run_chat_completion_loop, hok, backoffTrace]
  | succ j ih =>
    intro fuel attempt a hle hfail hok
    cases fuel with
    | zero => omega
    | succ f =>
      rcases hfail 0 (by omega) with ⟨e0, he0⟩
      simp only [Nat.add_zero] at he0
      have hrec := ih f (attempt + 1) a (by omega)
        (fun i hi => by
          rcases hfail (i + 1) (by omega) with ⟨e, he⟩
          exact ⟨e, by rw [show attempt + 1 + i = attempt + (i + 1) by omega]; exact he⟩)
        (by rw [show attempt + 1 + j = attempt + (j + 1) by omega]; exact hok)
      have hidx : attempt + (j + 1) = attempt + 1 + j := by omega
      rw [hidx]
      simp [run_chat_completion_loop, he0, hrec, backoffTrace]

theorem backoffTrace_attempts (prompt : Str) (w : ℚ) :
    ∀ (f attempt : Nat),
      (backoffTrace prompt w attempt f).filterMap Event.attemptIdx =
        List.range' attempt f := by
  intro f
  induction f with
  | zero => intro attempt; rfl
  | succ f ih =>
    intro attempt
    simp [backoffTrace, Event.attemptIdx, Event.sleepSecs, ih, List.range'_succ]

theorem backoffTrace_sleeps (prompt : Str) (w : ℚ) :
    ∀ (f attempt : Nat),
      (backoffTrace prompt w attempt f).filterMap Event.sleepSecs =
        (List.range' attempt f).map (fun n => w * 2 ^ n) := by
  intro f
  induction f with
  | zero => intro attempt; rfl
  | succ f ih =>
    intro attempt
    simp [backoffTrace, Event.attemptIdx, Event.sleepSecs, ih, List.range'_succ]

/-- Claim C2: wrapped in the retry loop with `max_retries ≥ 0` and base
delay `retry_wait`, a call failing on every attempt is attempted exactly
`max_retries + 1` times, with the suspension before the `(n+1)`-th attempt
equal to `retry_wait * 2 ^ n` for `n = 0 .. max_retries - 1`, after which
the terminal failure wraps the last error; a call succeeding on some
attempt returns that answer immediately, with no further attempts or
waits. -/
theorem C2_retry_backoff (callApi : Nat → Except Str Str) (prompt : Str)
    (max_retries : Nat) (retry_wait : ℚ) :
    ((∀ n, n ≤ max_retries → ∃ e, callApi n = .error e) →
      ∃ e, callApi max_retries = .error e ∧
        run_chat_completion callApi prompt max_retries retry_wait =
          (.error e, backoffTrace prompt retry_wait 0 max_retries
            ++ [Event.apiCall prompt max_retries]) ∧
        (run_chat_completion callApi prompt max_retries retry_wait).2.filterMap
          Event.attemptIdx = List.range (max_retries + 1) ∧
        (run_chat_completion callApi prompt max_retries retry_wait).2.filterMap
          Event.sleepSecs = (List.range max_retries).map (fun n => retry_wait * 2 ^ n)) ∧
    (∀ k a, k ≤ max_retries → (∀ n, n < k → ∃ e, callApi n = .error e) →
      callApi k = .ok a →
      run_chat_completion callApi prompt max_retries retry_wait =
        (.ok a, backoffTrace prompt retry_wait 0 k ++ [Event.apiCall prompt k]) ∧
      (run_chat_completion callApi prompt max_retries retry_wait).2.filterMap
        Event.attemptIdx = List.range (k + 1) ∧
      (run_chat_completion callApi prompt max_retries retry_wait).2.filterMap
        Event.sleepSecs = (List.range k).map (fun n => retry_wait * 2 ^ n)) := by
  constructor
  · intro h
    rcases run_chat_completion_loop_fail callApi prompt retry_wait max_retries 0
        (fun n h1 h2 => h n (by omega)) with ⟨e, he, hrun⟩
    simp only [Nat.zero_add] at he hrun
    refine ⟨e, he, hrun, ?_, ?_⟩
    · show (run_chat_completion_loop callApi prompt retry_wait 0 max_retries).2.filterMap
        Event.attemptIdx = _
      rw [hrun]
      simp [List.filterMap_append, backoffTrace_attempts, Event.attemptIdx,
        List.range_succ, List.range_eq_range']
    · show (run_chat_completion_loop callApi prompt retry_wait 0 max_retries).2.filterMap
        Event.sleepSecs = _
      rw [hrun]
      simp [List.filterMap_append, backoffTrace_sleeps, Event.sleepSecs,
        List.range_eq_range']
  · intro k a hk hfail hok
    have hrun := run_chat_completion_loop_succ callApi prompt retry_wait k max_retries 0 a
      hk (fun i hi => by simpa using hfail i hi) (by simpa using hok)
    simp only [Nat.zero_add] at hrun
    refine ⟨hrun, ?_, ?_⟩
    · show (run_chat_completion_loop callApi prompt retry_wait 0 max_retries).2.filterMap
        Event.attemptIdx = _
      rw [hrun]
      simp [List.filterMap_append, backoffTrace_attempts, Event.attemptIdx,
        List.range_succ, List.range_eq_range']
    · show (run_chat_completion_loop callApi prompt retry_wait 0 max_retries).2.filterMap
        Event.sleepSecs = _
      rw [hrun]
      simp [List.filterMap_append, backoffTrace_sleeps, Event.sleepSecs,
        List.range_eq_range']

/-- Witness for C2 at the spec's own instance: `max_retries = 2`,
`retry_wait = 1`, a call failing every attempt — three attempts, the delay
sequence `[1, 2]`, terminal failure wrapping the last error. -/
theorem C2_witness :
    run_chat_completion alwaysFailApi (("p").data) 2 1 =
      (.error (("boom").data),
       [.apiCall (("p").data) 0, .sleep 1, .apiCall (("p").data) 1, .sleep 2,
        .apiCall (("p").data) 2]) ∧
    (run_chat_completion alwaysFailApi (("p").data) 2 1).2.filterMap Event.sleepSecs =
      [1, 2] ∧
    (run_chat_completion alwaysFailApi (("p").data) 2 1).2.filterMap Event.attemptIdx =
      [0, 1, 2] := by
  rcases (C2_retry_backoff alwaysFailApi (("p").data) 2 1).1
      (fun n _ => ⟨("boom").data, rfl⟩) with ⟨e, he, hrun, hatt, hsleep⟩
  have he2 : e = ("boom").data := by
    have h3 : Except.error (α := Str) e = .error (("boom").data) := by
      rw [← he]; rfl
    simpa using h3
  subst he2
  refine ⟨?_, ?_, ?_⟩
  · rw [hrun]
    simp only [backoffTrace]
    norm_num
  · rw [hsleep]
    simp [List.range_succ]
  · rw [hatt]
    simp [List.range_succ]

theorem processQuestion_eq (args : Args) (rl : List (Str × ReplayEntry))
    (api : Nat → Nat → Except Str Str) (idx : Nat) (q : QuestionSpec) :
    processQuestion args rl api idx q =
      assembleEntry args q (build_prompt q.prompt args.zero_shot_suffix)
        (build_prompt q.prompt args.cot_suffix)
        (if rl ≠ [] then (answer_pair_replay rl q, [])
         else if args.dry_run then (.ok (answer_pair_simulated q), [])
         else answer_pair_live args api (2 * idx)
           (build_prompt q.prompt args.zero_shot_suffix)
           (build_prompt q.prompt args.cot_suffix)) := rfl

theorem assembleEntry_ok {args : Args} {q : QuestionSpec} {zp cp : Str}
    {answers : Except AppError (Str × Str) × List Event} {r : ResultEntry}
    {tr : List Event} (h : assembleEntry args q zp cp answers = (.ok r, tr)) :
    entryMatches q r := by
  rcases answers with ⟨res, evs⟩
  cases res with
  | error e => simp [assembleEntry] at h
  | ok p =>
    rcases p with ⟨za, ca⟩
    simp only [assembleEntry, Prod.mk.injEq, Except.ok.injEq] at h
    rcases h with ⟨h1, h2⟩
    subst h1
    exact ⟨rfl, rfl, rfl, rfl⟩

theorem processQuestion_ok_matches {args : Args} {rl : List (Str × ReplayEntry)}
    {api : Nat → Nat → Except Str Str} {idx : Nat} {q : QuestionSpec}
    {r : ResultEntry} {tr : List Event}
    (h : processQuestion args rl api idx q = (.ok r, tr)) : entryMatches q r :=
  assembleEntry_ok (processQuestion_eq args rl api idx q ▸ h)

theorem runLoop_ok_matches (args : Args) (rl : List (Str × ReplayEntry))
    (api : Nat → Nat → Except Str Str) :
    ∀ (qs : List QuestionSpec) (idx : Nat) (results : List ResultEntry),
      (runLoop args rl api qs idx).1 = .ok results →
      List.Forall₂ entryMatches qs results := by
  intro qs
  induction qs with
  | nil =>
    intro idx results h
    simp only [runLoop, Except.ok.injEq] at h
    rw [← h]
    exact List.Forall₂.nil
  | cons q rest ih =>
    intro idx results h
    simp only [runLoop] at h
    rcases hp : processQuestion args rl api idx q with ⟨res, tr⟩
    rw [hp] at h
    cases res with
    | error e => simp at h
    | ok entry =>
      simp only at h
      rcases ht : (runLoop args rl api rest (idx + 1)).1 with e2 | l
      · rw [ht] at h
        simp [Except.map] at h
      · rw [ht] at h
        simp only [Except.map, Except.ok.injEq] at h
        rw [← h]
        exact List.Forall₂.cons (processQuestion_ok_matches hp) (ih (idx + 1) l ht)

theorem run_chat_completion_loop_no_store (callApi : Nat → Except Str Str)
    (prompt : Str) (w : ℚ) :
    ∀ (fuel attempt : Nat),
      ∀ e ∈ (run_chat_completion_loop callApi prompt w attempt fuel).2,
        e.isStoreEvent = false := by
  intro fuel
  induction fuel with
  | zero =>
    intro attempt e he
    rcases hc : callApi attempt with err | ok
    · simp [run_chat_completion_loop, hc] at he
      rw [he]; rfl
    · simp [run_chat_completion_loop, hc] at he
      rw [he]; rfl
  | succ f ih =>
    intro attempt e he
    rcases hc : callApi attempt with err | ok
    · simp only [run_chat_completion_loop, hc, List.mem_cons] at he
      rcases he with he | he | he
      · rw [he]; rfl
      · rw [he]; rfl
      · exact ih (attempt + 1) e he
    · simp [run_chat_completion_loop, hc] at he
      rw [he]; rfl

theorem answer_pair_live_no_store (args : Args) (api : Nat → Nat → Except Str Str)
    (cb : Nat) (zp cp : Str) :
    ∀ e ∈ (answer_pair_live args api cb zp cp).2, e.isStoreEvent = false := by
  intro e he
  simp only [answer_pair_live] at he
  rcases hz : (run_chat_completion (api cb) zp args.max_retries args.retry_wait).1
      with ez | za
  · rw [hz] at he
    simp only at he
    exact run_chat_completion_loop_no_store (api cb) zp args.retry_wait
      args.max_retries 0 e he
  · rw [hz] at he
    simp only at he
    rcases hcres : (run_chat_completion (api (cb + 1)) cp args.max_retries
        args.retry_wait).1 with ec | ca <;>
      rw [hcres] at he <;>
      simp only at he <;>
      rcases List.mem_append.mp he with h1 | h1
    · exact run_chat_completion_loop_no_store (api cb) zp args.retry_wait
        args.max_retries 0 e h1
    · rcases List.mem_cons.mp h1 with h2 | h2
      · rw [h2]; rfl
      · exact run_chat_completion_loop_no_store (api (cb + 1)) cp args.retry_wait
          args.max_retries 0 e h2
    · exact run_chat_completion_loop_no_store (api cb) zp args.retry_wait
        args.max_retries 0 e h1
    · rcases List.mem_cons.mp h1 with h2 | h2
      · rw [h2]; rfl
      · exact run_chat_completion_loop_no_store (api (cb + 1)) cp args.retry_wait
          args.max_retries 0 e h2

theorem assembleEntry_trace (args : Args) (q : QuestionSpec) (zp cp : Str)
    (answers : Except AppError (Str × Str) × List Event) :
    ∀ e ∈ (assembleEntry args q zp cp answers).2,
      e ∈ answers.2 ∨ e = Event.sleep args.pause := by
  intro e he
  rcases answers with ⟨res, evs⟩
  cases res with
  | error e2 => exact Or.inl he
  | ok p =>
    rcases p with ⟨za, ca⟩
    simp only [assembleEntry] at he
    rcases List.mem_append.mp he with h1 | h1
    · exact Or.inl h1
    · exact Or.inr (List.mem_singleton.mp h1)

theorem processQuestion_no_store (args : Args) (rl : List (Str × ReplayEntry))
    (api : Nat → Nat → Except Str Str) (idx : Nat) (q : QuestionSpec) :
    ∀ e ∈ (processQuestion args rl api idx q).2, e.isStoreEvent = false := by
  intro e he
  rw [processQuestion_eq] at he
  rcases assembleEntry_trace _ _ _ _ _ e he with h1 | h1
  · by_cases hrl : rl ≠ []
    · rw [if_pos hrl] at h1
      simp at h1
    · rw [if_neg hrl] at h1
      by_cases hd : args.dry_run
      · rw [if_pos hd] at h1
        simp at h1
      · rw [if_neg hd] at h1
        exact answer_pair_live_no_store args api (2 * idx) _ _ e h1
  · rw [h1]; rfl

theorem runLoop_no_store (args : Args) (rl : List (Str × ReplayEntry))
    (api : Nat → Nat → Except Str Str) :
    ∀ (qs : List QuestionSpec) (idx : Nat),
      ∀ e ∈ (runLoop args rl api qs idx).2, e.isStoreEvent = false := by
  intro qs
  induction qs with
  | nil =>
    intro idx e he
    simp [runLoop] at he
  | cons q rest ih =>
    intro idx e he
    simp only [runLoop] at he
    rcases hp : processQuestion args rl api idx q with ⟨res, tr⟩
    rw [hp] at he
    cases res with
    | error e2 =>
      simp only at he
      have := processQuestion_no_store args rl api idx q e
      rw [hp] at this
      exact this he
    | ok entry =>
      simp only at he
      rcases List.mem_append.mp he with h1 | h1
      · have := processQuestion_no_store args rl api idx q e
        rw [hp] at this
        exact this h1
      · exact ih (idx + 1) e h1

theorem clientRes_ok {args : Args} {env : Env}
    (hclient : args.dry_run = false ∧ replayLookupOf args = [] →
      ∃ c, build_client env args.base_url = .ok c) :
    ∃ copt, (if args.dry_run = false ∧ replayLookupOf args = [] then
        (build_client env args.base_url).map some
      else (.ok none : Except AppError (Option Client))) = .ok copt := by
  by_cases hcond : args.dry_run = false ∧ replayLookupOf args = []
  · rcases hclient hcond with ⟨c, hc⟩
    exact ⟨some c, by rw [if_pos hcond, hc]; rfl⟩
  · exact ⟨none, if_neg hcond⟩

theorem mainRun_client_error (args : Args) (env : Env) (questions : List QuestionSpec)
    (api : Nat → Nat → Except Str Str) (run_stamp timestamp : Str) {e : AppError}
    (hcond : args.dry_run = false ∧ replayLookupOf args = [])
    (hb : build_client env args.base_url = .error e) :
    mainRun args env questions api run_stamp timestamp = (.error e, []) := by
  simp only [mainRun, if_pos hcond, hb]
  rfl

theorem mainRun_loop_error (args : Args) (env : Env) (questions : List QuestionSpec)
    (api : Nat → Nat → Except Str Str) (run_stamp timestamp : Str) {e : AppError}
    (hclient : args.dry_run = false ∧ replayLookupOf args = [] →
      ∃ c, build_client env args.base_url = .ok c)
    (hloop : (runLoop args (replayLookupOf args) api questions 0).1 = .error e) :
    mainRun args env questions api run_stamp timestamp =
      (.error e, (runLoop args (replayLookupOf args) api questions 0).2) := by
  rcases clientRes_ok hclient with ⟨copt, hcl⟩
  simp only [mainRun, hcl]
  rcases hl : runLoop args (replayLookupOf args) api questions 0 with ⟨res, tr⟩
  rw [hl] at hloop
  simp only at hloop
  rw [hloop]

theorem mainRun_loop_ok (args : Args) (env : Env) (questions : List QuestionSpec)
    (api : Nat → Nat → Except Str Str) (run_stamp timestamp : Str)
    {results : List ResultEntry} {tr : List Event}
    (hclient : args.dry_run = false ∧ replayLookupOf args = [] →
      ∃ c, build_client env args.base_url = .ok c)
    (hloop : runLoop args (replayLookupOf args) api questions 0 = (.ok results, tr)) :
    mainRun args env questions api run_stamp timestamp =
      (.ok (args.output_dir ++ '/' :: args.tag.getD run_stamp),
       tr ++ [Event.store (args.output_dir ++ '/' :: args.tag.getD run_stamp)
         (metadataOf args questions run_stamp timestamp) results args.save_markdown]) := by
  rcases clientRes_ok hclient with ⟨copt, hcl⟩
  simp only [mainRun, hcl, hloop]
  rfl

theorem processQuestion_replay_missing (args : Args) {rl : List (Str × ReplayEntry)}
    (api : Nat → Nat → Except Str Str) (idx : Nat) {q : QuestionSpec}
    (hne : rl ≠ []) (hmiss : dictGet rl q.prompt = none) :
    processQuestion args rl api idx q = (.error (.keyError q.prompt), []) := by
  rw [processQuestion_eq, if_pos hne]
  simp [answer_pair_replay, hmiss, assembleEntry]

theorem processQuestion_replay_found (args : Args) {rl : List (Str × ReplayEntry)}
    (api : Nat → Nat → Except Str Str) (idx : Nat) {q : QuestionSpec}
    (hne : rl ≠ []) {entry : ReplayEntry}
    (hget : dictGet rl q.prompt = some entry) :
    ∃ r, processQuestion args rl api idx q = (.ok r, [Event.sleep args.pause]) := by
  rw [processQuestion_eq, if_pos hne]
  simp only [answer_pair_replay, hget, assembleEntry, List.nil_append]
  exact ⟨_, rfl⟩

theorem runLoop_replay_missing (args : Args) {rl : List (Str × ReplayEntry)}
    (api : Nat → Nat → Except Str Str) (hne : rl ≠ []) :
    ∀ (qs1 : List QuestionSpec) (q : QuestionSpec) (qs2 : List QuestionSpec) (idx : Nat),
      (∀ p ∈ qs1, dictGet rl p.prompt ≠ none) →
      dictGet rl q.prompt = none →
      (runLoop args rl api (qs1 ++ q :: qs2) idx).1 = .error (.keyError q.prompt) ∧
      ∀ e ∈ (runLoop args rl api (qs1 ++ q :: qs2) idx).2,
        e = Event.sleep args.pause := by
  intro qs1
  induction qs1 with
  | nil =>
    intro q qs2 idx hall hmiss
    simp only [List.nil_append, runLoop,
      processQuestion_replay_missing args api idx hne hmiss]
    simp
  | cons p rest ih =>
    intro q qs2 idx hall hmiss
    have hp := hall p (List.mem_cons_self p rest)
    rcases Option.ne_none_iff_exists'.mp hp with ⟨entry, hentry⟩
    rcases processQuestion_replay_found args api idx hne hentry with ⟨r, hr⟩
    rcases ih q qs2 (idx + 1) (fun p2 h2 => hall p2 (List.mem_cons_of_mem p h2)) hmiss
      with ⟨h1, h2⟩
    have hshape : runLoop args rl api ((p :: rest) ++ q :: qs2) idx =
        ((runLoop args rl api (rest ++ q :: qs2) (idx + 1)).1.map (fun l => r :: l),
         [Event.sleep args.pause] ++ (runLoop args rl api (rest ++ q :: qs2) (idx + 1)).2) := by
      show runLoop args rl api (p :: (rest ++ q :: qs2)) idx = _
      simp only [runLoop, hr]
    rw [hshape]
    constructor
    · show (runLoop args rl api (rest ++ q :: qs2) (idx + 1)).1.map (fun l => r :: l) = _
      rcases hl : (runLoop args rl api (rest ++ q :: qs2) (idx + 1)).1 with e2 | l
      · rw [hl] at h1
        simp only [Except.error.injEq] at h1
        simp [Except.map, h1]
      · rw [hl] at h1
        simp at h1
    · intro e he
      rcases List.mem_append.mp he with h3 | h3
      · exact List.mem_singleton.mp h3
      · exact h2 e h3

theorem replayLookupOf_eq_nil_iff (args : Args) :
    replayLookupOf args = [] ↔
      ∀ fx, args.replay_file = some fx → fx.records = [] := by
  unfold replayLookupOf
  cases hrf : args.replay_file with
  | none => simp
  | some fx => simp [load_replay_data]

theorem selectedProvider_replay_iff (d : Bool) (rl : List (Str × ReplayEntry)) :
    selectedProvider d rl = .replay ↔ rl ≠ [] := by
  unfold selectedProvider
  split_ifs with h1 h2 <;> simp_all

theorem selectedProvider_simulated_iff (d : Bool) (rl : List (Str × ReplayEntry)) :
    selectedProvider d rl = .simulated ↔ (rl = [] ∧ d = true) := by
  unfold selectedProvider
  split_ifs with h1 h2 <;> simp_all

theorem selectedProvider_live_iff (d : Bool) (rl : List (Str × ReplayEntry)) :
    selectedProvider d rl = .live ↔ (rl = [] ∧ d = false) := by
  unfold selectedProvider
  split_ifs with h1 h2 <;> simp_all

theorem processQuestion_eq_selected (args : Args) (rl : List (Str × ReplayEntry))
    (api : Nat → Nat → Except Str Str) (idx : Nat) (q : QuestionSpec) :
    processQuestion args rl api idx q = processQuestionBySelected args rl api idx q := by
  rw [processQuestion_eq]
  show _ = assembleEntry args q _ _ _
  congr 1
  unfold selectedProvider
  by_cases h1 : rl ≠ []
  · rw [if_pos h1, if_pos h1]
  · rw [if_neg h1, if_neg h1]
    by_cases h2 : args.dry_run
    · rw [if_pos h2, if_pos h2]
    · rw [if_neg h2, if_neg h2]

theorem mainRun_cases (args : Args) (env : Env) (questions : List QuestionSpec)
    (api : Nat → Nat → Except Str Str) (run_stamp timestamp : Str) :
    (∃ e, mainRun args env questions api run_stamp timestamp = (.error e, [])) ∨
    (∃ e, (runLoop args (replayLookupOf args) api questions 0).1 = .error e ∧
      mainRun args env questions api run_stamp timestamp =
        (.error e, (runLoop args (replayLookupOf args) api questions 0).2)) ∨
    (∃ results tr folder,
      runLoop args (replayLookupOf args) api questions 0 = (.ok results, tr) ∧
      mainRun args env questions api run_stamp timestamp =
        (.ok folder, tr ++ [Event.store folder
          (metadataOf args questions run_stamp timestamp) results
          args.save_markdown])) := by
  simp only [mainRun]
  cases hcr : (if args.dry_run = false ∧ replayLookupOf args = [] then
      (build_client env args.base_url).map some
    else (.ok none : Except AppError (Option Client))) with
  | error ec => exact Or.inl ⟨ec, rfl⟩
  | ok copt =>
    cases hl : runLoop args (replayLookupOf args) api questions 0 with
    | mk res tr =>
      cases res with
      | error e =>
        exact Or.inr (Or.inl ⟨e, rfl, rfl⟩)
      | ok results =>
        exact Or.inr (Or.inr ⟨results, tr,
          args.output_dir ++ '/' :: args.tag.getD run_stamp, rfl, rfl⟩)

/-- Claim C9: persistence is atomic with respect to the run — on a
successful run the result store is invoked exactly once, as the final event
after all per-question events; on a run aborted by an unrecovered error no
store event occurs at all, so no output artifact is written for that run
id. -/
theorem C9_store_once (args : Args) (env : Env) (questions : List QuestionSpec)
    (api : Nat → Nat → Except Str Str) (run_stamp timestamp : Str) :
    ((∃ folder, (mainRun args env questions api run_stamp timestamp).1 = .ok folder) →
      ∃ tr folder metadata records sm,
        (mainRun args env questions api run_stamp timestamp).2 =
          tr ++ [Event.store folder metadata records sm] ∧
        ∀ e ∈ tr, e.isStoreEvent = false) ∧
    ((∃ err, (mainRun args env questions api run_stamp timestamp).1 = .error err) →
      ∀ e ∈ (mainRun args env questions api run_stamp timestamp).2,
        e.isStoreEvent = false) := by
  rcases mainRun_cases args env questions api run_stamp timestamp with
    ⟨e, hm⟩ | ⟨e, hl, hm⟩ | ⟨results, tr, folder, hl, hm⟩
  · rw [hm]
    constructor
    · rintro ⟨f, hf⟩
      simp at hf
    · intro _ e2 he2
      simp at he2
  · rw [hm]
    constructor
    · rintro ⟨f, hf⟩
      simp at hf
    · intro _ e2 he2
      exact runLoop_no_store args (replayLookupOf args) api questions 0 e2 he2
  · rw [hm]
    constructor
    · intro _
      refine ⟨tr, folder, metadataOf args questions run_stamp timestamp, results,
        args.save_markdown, rfl, ?_⟩
      intro e2 he2
      refine runLoop_no_store args (replayLookupOf args) api questions 0 e2 ?_
      rw [hl]
      exact he2
    · rintro ⟨err, herr⟩
      simp at herr

/-- Witness for C9 at a concrete successful dry run with one question: the
store happens exactly once. -/
theorem C9_witness :
    (mainRun dryArgs noKeyEnv [blankTruthQuestion] noApi (("s").data)
      (("ts").data)).2.countP Event.isStoreEvent = 1 := by
  rcases (C9_store_once dryArgs noKeyEnv [blankTruthQuestion] noApi (("s").data)
      (("ts").data)).1 ⟨("out/t1").data, by decide⟩ with
    ⟨tr, folder, metadata, records, sm, heq, hfree⟩
  rw [heq, List.countP_append]
  have h0 : tr.countP Event.isStoreEvent = 0 := by
    rw [List.countP_eq_zero]
    intro a ha
    simp [hfree a ha]
  rw [h0]
  rfl

/-- Counterexample to claim C4 as stated: a completed dry run over one
question whose ground truth is a single space (non-empty, but normalizing
to the empty string) persists exactly one record whose ground truth is
non-empty and whose zero-shot verdict is nevertheless unknown — so
"unknown iff ground_truth is empty" fails on the code. -/
theorem C4_counterexample :
    (mainRun dryArgs noKeyEnv [blankTruthQuestion] noApi (("s").data)
      (("ts").data)).2.filterMap Event.storedPairs = [[([' '], none)]] ∧
    blankTruthQuestion.ground_truth = [' '] ∧
    blankTruthQuestion.ground_truth ≠ [] := by decide

/-- Claim C4, corrected: every persisted record sequence has exactly one
entry per question, in source order, carrying that question's prompt and
ground truth; an entry's zero-shot and CoT verdicts are unknown iff the
question's ground truth is empty OR normalizes to the empty string. -/
theorem C4_records_invariant (args : Args) (env : Env)
    (questions : List QuestionSpec) (api : Nat → Nat → Except Str Str)
    (run_stamp timestamp : Str) (folder : Str) (metadata : RunMetadata)
    (records : List ResultEntry) (sm : Bool)
    (h : Event.store folder metadata records sm ∈
      (mainRun args env questions api run_stamp timestamp).2) :
    records.length = questions.length ∧
    ∀ i (h1 : i < questions.length) (h2 : i < records.length),
      (records.get ⟨i, h2⟩).question = (questions.get ⟨i, h1⟩).prompt ∧
      (records.get ⟨i, h2⟩).ground_truth = (questions.get ⟨i, h1⟩).ground_truth ∧
      ((records.get ⟨i, h2⟩).zero_shot_correct = none ↔
        ((questions.get ⟨i, h1⟩).ground_truth = [] ∨
          normalize_text (questions.get ⟨i, h1⟩).ground_truth = [])) ∧
      ((records.get ⟨i, h2⟩).cot_correct = none ↔
        ((questions.get ⟨i, h1⟩).ground_truth = [] ∨
          normalize_text (questions.get ⟨i, h1⟩).ground_truth = [])) := by
  rcases mainRun_cases args env questions api run_stamp timestamp with
    ⟨e, hm⟩ | ⟨e, hl, hm⟩ | ⟨results, tr, folder2, hl, hm⟩
  · rw [hm] at h
    simp at h
  · rw [hm] at h
    have := runLoop_no_store args (replayLookupOf args) api questions 0 _ h
    simp [Event.isStoreEvent] at this
  · rw [hm] at h
    simp only at h
    rcases List.mem_append.mp h with h3 | h3
    · have h4 : Event.store folder metadata records sm ∈
          (runLoop args (replayLookupOf args) api questions 0).2 := by
        rw [hl]
        exact h3
      have := runLoop_no_store args (replayLookupOf args) api questions 0 _ h4
      simp [Event.isStoreEvent] at this
    · have h5 := List.mem_singleton.mp h3
      have h6 : records = results := by
        cases h5
        rfl
      subst h6
      have hforall := runLoop_ok_matches args (replayLookupOf args) api questions 0
        records (by rw [hl])
      rcases List.forall₂_iff_get.mp hforall with ⟨hlen, hget⟩
      refine ⟨hlen.symm, ?_⟩
      intro i h1 h2
      rcases hget i h1 h2 with ⟨hq, hg, hz, hc⟩
      refine ⟨hq, hg, ?_, ?_⟩
      · rw [hz, is_answer_correct_none_iff]
      · rw [hc, is_answer_correct_none_iff]

/-- Witness for the corrected C4 theorem at a concrete empty dry run: its
store event is in the trace and the invariant holds (trivially) of the
empty record list. -/
theorem C4_witness :
    (([] : List ResultEntry)).length = (([] : List QuestionSpec)).length :=
  (C4_records_invariant dryArgs noKeyEnv [] noApi (("s").data) (("ts").data)
    (("out/t1").data) (metadataOf dryArgs [] (("s").data) (("ts").data)) [] false
    (by decide)).1

/-- Claim C10: over an empty question sequence the run completes
successfully and persists exactly one artifact under the run id, with an
empty records list and question_count 0; the whole trace is that single
store event, so no provider call is made.  The hypothesis is that client
construction succeeds when Live mode is selected (over an empty question
list, replay/dry-run configurations satisfy it vacuously). -/
theorem C10_empty_run (args : Args) (env : Env) (api : Nat → Nat → Except Str Str)
    (run_stamp timestamp : Str)
    (hclient : args.dry_run = false ∧ replayLookupOf args = [] →
      ∃ c, build_client env args.base_url = .ok c) :
    mainRun args env [] api run_stamp timestamp =
      (.ok (args.output_dir ++ '/' :: args.tag.getD run_stamp),
       [Event.store (args.output_dir ++ '/' :: args.tag.getD run_stamp)
         (metadataOf args [] run_stamp timestamp) [] args.save_markdown]) ∧
    (metadataOf args [] run_stamp timestamp).question_count = 0 := by
  have h := mainRun_loop_ok args env [] api run_stamp timestamp hclient
    (show runLoop args (replayLookupOf args) api [] 0 = (.ok [], []) from rfl)
  constructor
  · rw [h]
    rfl
  · rfl

/-- Witness for C10 at the concrete dry-run configuration. -/
theorem C10_witness :
    mainRun dryArgs noKeyEnv [] noApi (("s").data) (("ts").data) =
      (.ok (dryArgs.output_dir ++ '/' :: dryArgs.tag.getD (("s").data)),
       [Event.store (dryArgs.output_dir ++ '/' :: dryArgs.tag.getD (("s").data))
         (metadataOf dryArgs [] (("s").data) (("ts").data)) []
         dryArgs.save_markdown]) ∧
    (metadataOf dryArgs [] (("s").data) (("ts").data)).question_count = 0 :=
  C10_empty_run dryArgs noKeyEnv noApi (("s").data) (("ts").data)
    (fun hc => absurd hc.1 (by decide))

/-- Claim C8: in Replay mode (a non-empty replay index), a question whose
literal prompt text is absent from the index raises the data error
(`KeyError`) at that question, with no provider call and no fallback: the
per-question step returns the error with an empty trace, and a run reaching
such a question (all earlier questions present in the index) aborts with
that error, its whole trace free of API calls and store events. -/
theorem C8_replay_missing (args : Args) (env : Env)
    (api : Nat → Nat → Except Str Str) (idx : Nat) (q : QuestionSpec)
    (qs1 qs2 : List QuestionSpec) (run_stamp timestamp : Str)
    (hmode : replayLookupOf args ≠ [])
    (hmiss : dictGet (replayLookupOf args) q.prompt = none)
    (hall : ∀ p ∈ qs1, dictGet (replayLookupOf args) p.prompt ≠ none) :
    processQuestion args (replayLookupOf args) api idx q =
      (.error (.keyError q.prompt), []) ∧
    (mainRun args env (qs1 ++ q :: qs2) api run_stamp timestamp).1 =
      .error (.keyError q.prompt) ∧
    ∀ e ∈ (mainRun args env (qs1 ++ q :: qs2) api run_stamp timestamp).2,
      e.isApiEvent = false ∧ e.isStoreEvent = false := by
  rcases runLoop_replay_missing args api hmode qs1 q qs2 0 hall hmiss with ⟨h1, h2⟩
  have hclient : args.dry_run = false ∧ replayLookupOf args = [] →
      ∃ c, build_client env args.base_url = .ok c :=
    fun hc => absurd hc.2 hmode
  have hm := mainRun_loop_error args env (qs1 ++ q :: qs2) api run_stamp timestamp
    hclient h1
  refine ⟨processQuestion_replay_missing args api idx hmode hmiss, ?_, ?_⟩
  · rw [hm]
  · intro e he
    rw [hm] at he
    simp only at he
    rw [h2 e he]
    exact ⟨rfl, rfl⟩

/-- Witness for C8 at the concrete one-record fixture and a question absent
from it. -/
theorem C8_witness :
    processQuestion replayArgs (replayLookupOf replayArgs) noApi 0 missingQuestion =
      (.error (.keyError (("absent").data)), []) ∧
    (mainRun replayArgs noKeyEnv [missingQuestion] noApi (("s").data)
      (("ts").data)).1 = .error (.keyError (("absent").data)) := by
  rcases C8_replay_missing replayArgs noKeyEnv noApi 0 missingQuestion [] []
      (("s").data) (("ts").data) (by decide) (by decide) (by simp) with ⟨h1, h2, h3⟩
  exact ⟨h1, h2⟩

/-- Counterexample to claim C1 as stated: a replay fixture is supplied, but
its records list is empty, so the loaded lookup dict is empty (falsy in the
branch chain).  The run then selects the Live provider and requires a
credential after all: with no key in the environment it aborts with the
configuration error, contradicting "if a replay fixture is supplied then
the Replay provider is used and no live client is constructed and no
credential is required". -/
theorem C1_counterexample :
    emptyFixtureArgs.replay_file ≠ none ∧
    selectedProvider emptyFixtureArgs.dry_run (replayLookupOf emptyFixtureArgs) =
      .live ∧
    (mainRun emptyFixtureArgs noKeyEnv [] noApi (("s").data) (("ts").data)).1 =
      .error .environmentError := by decide

/-- Claim C1, corrected: provider selection is a function of the
configuration alone, fixed once for the whole run: Replay is used exactly
when a replay fixture is supplied AND its records list is non-empty (a
supplied fixture with an empty records list is ignored); otherwise
Simulated exactly when dry-run is requested; otherwise Live.  When the
selection is not Live the run never consults the ambient environment (no
client is constructed, no credential is required); when it is Live, a
missing credential aborts the run before any question is processed.  Every
question is dispatched to exactly the selected provider. -/
theorem C1_provider_selection (args : Args) (env env2 : Env)
    (questions : List QuestionSpec) (api : Nat → Nat → Except Str Str)
    (run_stamp timestamp : Str) (idx : Nat) (q : QuestionSpec) :
    (selectedProvider args.dry_run (replayLookupOf args) = .replay ↔
      ∃ fx, args.replay_file = some fx ∧ fx.records ≠ []) ∧
    (selectedProvider args.dry_run (replayLookupOf args) = .simulated ↔
      ((∀ fx, args.replay_file = some fx → fx.records = []) ∧
        args.dry_run = true)) ∧
    (selectedProvider args.dry_run (replayLookupOf args) = .live ↔
      ((∀ fx, args.replay_file = some fx → fx.records = []) ∧
        args.dry_run = false)) ∧
    (selectedProvider args.dry_run (replayLookupOf args) ≠ .live →
      mainRun args env questions api run_stamp timestamp =
        mainRun args env2 questions api run_stamp timestamp) ∧
    (selectedProvider args.dry_run (replayLookupOf args) = .live →
      env.api_key = none →
      (mainRun args env questions api run_stamp timestamp).1 =
        .error .environmentError) ∧
    processQuestion args (replayLookupOf args) api idx q =
      processQuestionBySelected args (replayLookupOf args) api idx q := by
  refine ⟨?_, ?_, ?_, ?_, ?_,
    processQuestion_eq_selected args (replayLookupOf args) api idx q⟩
  · rw [selectedProvider_replay_iff, Ne, replayLookupOf_eq_nil_iff]
    constructor
    · intro h
      push_neg at h
      exact h
    · rintro ⟨fx, hfx, hne⟩ hall
      exact hne (hall fx hfx)
  · rw [selectedProvider_simulated_iff, replayLookupOf_eq_nil_iff]
  · rw [selectedProvider_live_iff, replayLookupOf_eq_nil_iff]
  · intro hnl
    have hcond : ¬(args.dry_run = false ∧ replayLookupOf args = []) := by
      intro hc
      exact hnl ((selectedProvider_live_iff _ _).mpr ⟨hc.2, hc.1⟩)
    simp only [mainRun, if_neg hcond]
  · intro hl hkey
    have hc := (selectedProvider_live_iff _ _).mp hl
    have hb : build_client env args.base_url = .error .environmentError := by
      simp [build_client, hkey]
    rw [mainRun_client_error args env questions api run_stamp timestamp
      ⟨hc.2, hc.1⟩ hb]

/-- Witness for the corrected C1 theorem: under the dry-run configuration
the selection is not Live, so the run is independent of the ambient
environment (no credential consulted). -/
theorem C1_witness :
    mainRun dryArgs noKeyEnv [] noApi (("s").data) (("ts").data) =
      mainRun dryArgs keyedEnv [] noApi (("s").data) (("ts").data) :=
  (C1_provider_selection dryArgs noKeyEnv keyedEnv [] noApi (("s").data)
    (("ts").data) 0 blankTruthQuestion).2.2.2.1 (by decide)
